import Mathlib

/-!
Verification of the EAOS "muscle" fixed-point neural predictors.

This file gives a shallow embedding of the C sources under
src/Ea_OS/muscles/musclekernel-main/ and settles the frozen claims about
them.  The embedding follows the source:

* `muscle_fixed` (s32 interpreted at scale 2^12) is modelled as `Int`.
  Where the source's s32 arithmetic overflows on reachable values — the
  cube inside `muscle_tanh`, which overflows for every input of
  magnitude at least 1291 — the two's-complement wrap-around of the
  kernel build is modelled exactly (`wrap32`), as are the conversions
  that C itself defines (`toS32`, `sdiv_u64`); the rest of the
  arithmetic exercised by the concrete evaluations below stays inside
  the s32 range.
* C's `>>` on the non-negative quantities reached here is the arithmetic
  shift `sar` (floor division by a power of two); C's `/` on two signed
  operands is `Int.tdiv` (truncation toward zero).
* `delta / sec_count` in muscle_security.c divides an `s32` by a `u64`:
  the usual arithmetic conversions turn this into an unsigned 64-bit
  division whose quotient is truncated back to `s32` on assignment;
  `sdiv_u64` reproduces that exactly.
* Weight tables are included from `weights/*.hex` files that are not part
  of the sources; all evaluators are therefore parameterized by the
  weight tables, and concrete evaluations instantiate them explicitly.
* Flat row-major C arrays become functions `Nat → Int`; the fixed loop
  bounds of the source appear as explicit `isum` bounds.
-/

set_option maxRecDepth 100000

/-- Scale of the fixed-point format, `MUSCLE_FIXED_SHIFT` in muscle.h. -/
def MUSCLE_FIXED_SHIFT : Nat := 12

/-- `MUSCLE_FIXED_ONE = 1 << 12` from muscle.h. -/
def MUSCLE_FIXED_ONE : Int := 2 ^ MUSCLE_FIXED_SHIFT

/-- Arithmetic right shift by `k`: floor division by `2^k`, which is what
`>>` does on the values reached in the source (and what the spec calls
"truncating toward negative infinity"). -/
def sar (x : Int) (k : Nat) : Int := Int.fdiv x ((2 : Int) ^ k)

/-- The fixed-point product as the spec prescribes it: multiply the raw
values and rescale by an arithmetic right shift of `S = 12`.  The C
sources never perform this rescale; this definition exists to compare the
spec's stated semantics with what the code computes. -/
def muscle_fixed_mul_claim (a b : Int) : Int := sar (a * b) MUSCLE_FIXED_SHIFT

/-- Truncation of a `u64` value to C's 32-bit `int` (two's complement). -/
def toS32 (v : Nat) : Int :=
  let m : Nat := v % 2 ^ 32
  if m < 2 ^ 31 then (m : Int) else (m : Int) - 2 ^ 32

/-- C's `s32 / u64`: the signed operand is converted to `u64` (mod 2^64),
the division is unsigned, and the quotient is truncated back to `s32`
when stored.  This is the semantics of `delta / sec_count` and
`sec_running_var[0] / (sec_count - 1)` in muscle_security.c. -/
def sdiv_u64 (d : Int) (c : Nat) : Int := toS32 ((d.emod (2 ^ 64)).toNat / c)

/-- Sum of `f 0 + f 1 + ... + f (n-1)`, the accumulation pattern of every
weight loop in the sources. -/
def isum (f : Nat → Int) : Nat → Int
  | 0 => 0
  | n + 1 => isum f n + f n

theorem isum_congr {f g : Nat → Int} : ∀ n : Nat, (∀ j, j < n → f j = g j) →
    isum f n = isum g n
  | 0, _ => rfl
  | n + 1, h => by
    simp only [isum]
    rw [isum_congr n (fun j hj => h j (Nat.lt_succ_of_lt hj)), h n (Nat.lt_succ_self n)]

/-- `muscle_relu` from muscle_core.c: `x > 0 ? x : 0`. -/
def muscle_relu (x : Int) : Int := if x > 0 then x else 0

/-- `muscle_sigmoid` from muscle_cache.c, exactly as written: saturate
outside the band, otherwise `approx = (|x| >> 2) * (ONE - (|x| >> 4))`
(a raw product, not rescaled) and `ONE/2 ∓ approx/2`. -/
def muscle_sigmoid (x : Int) : Int :=
  if x < -(8 * MUSCLE_FIXED_ONE) then 0
  else if x > 8 * MUSCLE_FIXED_ONE then MUSCLE_FIXED_ONE
  else
    let abs_x := if x < 0 then -x else x
    let approx := sar abs_x 2 * (MUSCLE_FIXED_ONE - sar abs_x 4)
    if x < 0 then sar MUSCLE_FIXED_ONE 1 - sar approx 1
    else sar MUSCLE_FIXED_ONE 1 + sar approx 1

/-- Two's-complement truncation to signed 32 bits: the wrap-around of
the kernel's s32 arithmetic on overflow. -/
def wrap32 (v : Int) : Int := (v + 2 ^ 31).emod (2 ^ 32) - 2 ^ 31

/-- `muscle_tanh` from muscle_cache.c: saturate beyond `±5·ONE`,
otherwise `x - (x*x*x) / (3*ONE*ONE)` with C's signed division (toward
zero).  The products `x*x` and `(x*x)*x` are s32 multiplications; the
cube overflows for every `|x| ≥ 1291` — well inside the band — and the
kernel build wraps it two's-complement, which `wrap32` reproduces
(e.g. `4096³ = 2^36` wraps to `0`, `9000³` wraps to `-1144440320`). -/
def muscle_tanh (x : Int) : Int :=
  if x > 5 * MUSCLE_FIXED_ONE then MUSCLE_FIXED_ONE
  else if x < -(5 * MUSCLE_FIXED_ONE) then -MUSCLE_FIXED_ONE
  else x - Int.tdiv (wrap32 (wrap32 (x * x) * x)) (3 * MUSCLE_FIXED_ONE * MUSCLE_FIXED_ONE)

/-- Weight tables of the scheduling DQN in muscle_scheduler.c
(`sched_w1`, `sched_b1`, `sched_w2`, `sched_b2`), row-major, supplied by
hex includes that are external to the sources. -/
structure SchedW where
  w1 : Nat → Int
  b1 : Nat → Int
  w2 : Nat → Int
  b2 : Nat → Int

/-- Hidden unit `i` of `sched_forward`: `relu(b1[i] + Σ_j w1[i*10+j] * state[j])`.
The products are raw integer products, exactly as in the source. -/
def sched_hidden (w : SchedW) (state : Nat → Int) (i : Nat) : Int :=
  muscle_relu (w.b1 i + isum (fun j => w.w1 (i * 10 + j) * state j) 10)

/-- Q-value `i` of `sched_forward`: `b2[i] + Σ_j w2[i*32+j] * h[j]`. -/
def sched_q (w : SchedW) (state : Nat → Int) (i : Nat) : Int :=
  w.b2 i + isum (fun j => w.w2 (i * 32 + j) * sched_hidden w state j) 32

/-- The argmax loop of `sched_forward`: start from `(action, best) = (0, q[0])`
and update on strictly greater Q-values (ties keep the earlier index). -/
def sched_forward (w : SchedW) (state : Nat → Int) : Nat :=
  ((List.range 4).foldl
    (fun p k => if sched_q w state (k + 1) > p.2 then (k + 1, sched_q w state (k + 1)) else p)
    (0, sched_q w state 0)).1

/-- The state vector built by `muscle_scheduler_tick` from `n` collected
candidates: slots `i` and `i+5` carry the two features of candidate
`i < n`, the remaining slots are zero-padded. -/
def sched_state (n : Nat) (f1 f2 : Nat → Int) : Nat → Int := fun i =>
  if i < 5 then (if i < n then f1 i else 0)
  else if i < 10 then (if i - 5 < n then f2 (i - 5) else 0)
  else 0

/-- `muscle_scheduler_tick` after candidate collection: with `n = 0` it
returns before building any state (leaving `rq->curr` untouched);
otherwise it runs the network and switches `rq->curr` only when
`chosen < n` and the chosen candidate differs from the current one.
`cands` gives the collected candidate identities, `curr` the current
selection; the result is the new `rq->curr`. -/
def muscle_scheduler_tick (w : SchedW) (n : Nat) (f1 f2 : Nat → Int)
    (cands : Nat → Nat) (curr : Nat) : Nat :=
  if n = 0 then curr
  else
    let chosen := sched_forward w (sched_state n f1 f2)
    if chosen < n ∧ cands chosen ≠ curr then cands chosen else curr

/-- Weight tables of an LSTM cell as laid out in muscle_cache.c: input
matrices `wi/wf/wg/wo` (`H×IN`, row-major, flat), recurrent matrices
`ri/rf/rg/ro` (`H×H`), and bias vectors `bi/bf/bg/bo` (`H`), together
with the dimensions `IN` and `H`. -/
structure LstmW where
  IN : Nat
  H : Nat
  wi : Nat → Int
  wf : Nat → Int
  wg : Nat → Int
  wo : Nat → Int
  ri : Nat → Int
  rf : Nat → Int
  rg : Nat → Int
  ro : Nat → Int
  bi : Nat → Int
  bf : Nat → Int
  bg : Nat → Int
  bo : Nat → Int

/-- The four gate pre-activation sums of unit `i` exactly as `lstm_step`
computes them from the hidden vector `h` it currently sees: only `sum_i`
receives input-weight terms (the `wf/wg/wo` loops are absent from the
source), and `sum_f/sum_g/sum_o` are bias plus recurrent terms. -/
def lstm_sums (W : LstmW) (x h : Nat → Int) (i : Nat) : Int × Int × Int × Int :=
  (W.bi i + isum (fun j => W.wi (i * W.IN + j) * x j) W.IN
      + isum (fun j => W.ri (i * W.H + j) * h j) W.H,
   W.bf i + isum (fun j => W.rf (i * W.H + j) * h j) W.H,
   W.bg i + isum (fun j => W.rg (i * W.H + j) * h j) W.H,
   W.bo i + isum (fun j => W.ro (i * W.H + j) * h j) W.H)

/-- One iteration of the unit loop in `lstm_step`: compute the gates from
the current `(h, c)` (which already contains this step's updates for
units `j < i`), then overwrite `c[i]` and `h[i]` in place.  The forget
gate adds `+ONE` before the sigmoid; the products are raw integer
products as in the source. -/
def lstm_unit (W : LstmW) (x : Nat → Int) (hc : (Nat → Int) × (Nat → Int)) (i : Nat) :
    (Nat → Int) × (Nat → Int) :=
  let s := lstm_sums W x hc.1 i
  let it := muscle_sigmoid s.1
  let ft := muscle_sigmoid (s.2.1 + MUSCLE_FIXED_ONE)
  let gt := muscle_tanh s.2.2.1
  let ot := muscle_sigmoid s.2.2.2
  let ci := ft * hc.2 i + it * gt
  let hi := ot * muscle_tanh ci
  (fun j => if j = i then hi else hc.1 j, fun j => if j = i then ci else hc.2 j)

/-- `lstm_step` from muscle_cache.c: the unit loop runs `i = 0, ..., H-1`
sequentially over the shared state, so later units read hidden values
already overwritten earlier in the same step. -/
def lstm_step (W : LstmW) (x : Nat → Int) (hc : (Nat → Int) × (Nat → Int)) :
    (Nat → Int) × (Nat → Int) :=
  (List.range W.H).foldl (lstm_unit W x) hc

/-- The gate pre-activations as the claim states them: every one of the
four gates is an affine combination of the new input `x` (through its
input weight matrix) and of the hidden vector as it was at the start of
the step.  This differs from `lstm_sums` in both respects. -/
def lstm_gates_claim (W : LstmW) (x h : Nat → Int) (i : Nat) : Int × Int × Int × Int :=
  (W.bi i + isum (fun j => W.wi (i * W.IN + j) * x j) W.IN
      + isum (fun j => W.ri (i * W.H + j) * h j) W.H,
   W.bf i + isum (fun j => W.wf (i * W.IN + j) * x j) W.IN
      + isum (fun j => W.rf (i * W.H + j) * h j) W.H,
   W.bg i + isum (fun j => W.wg (i * W.IN + j) * x j) W.IN
      + isum (fun j => W.rg (i * W.H + j) * h j) W.H,
   W.bo i + isum (fun j => W.wo (i * W.IN + j) * x j) W.IN
      + isum (fun j => W.ro (i * W.H + j) * h j) W.H)

/-- The LSTM step as the claim states it: all gates are computed from the
start-of-step hidden vector, then `c' = f⊙c + i⊙g` and
`h' = o⊙Tanh(c')`.  The elementwise products are kept identical to the
code's raw products so that the only difference from `lstm_step` is the
dataflow of the gate computation. -/
def lstm_step_claim (W : LstmW) (x : Nat → Int) (hc : (Nat → Int) × (Nat → Int)) :
    (Nat → Int) × (Nat → Int) :=
  let cNew := fun i =>
    let s := lstm_gates_claim W x hc.1 i
    muscle_sigmoid (s.2.1 + MUSCLE_FIXED_ONE) * hc.2 i + muscle_sigmoid s.1 * muscle_tanh s.2.2.1
  (fun i =>
    let s := lstm_gates_claim W x hc.1 i
    muscle_sigmoid s.2.2.2 * muscle_tanh (cNew i), cNew)

/-- A concrete 1-input, 2-hidden-unit weight assignment: the only nonzero
entries are the candidate biases `bg = ONE` (so that unit 0 acquires a
nonzero hidden value) and the recurrent input weight `ri[1][0] = 1`
(so that unit 1's input gate reads `h[0]`). -/
def lstmW_c4 : LstmW :=
  { IN := 1, H := 2,
    wi := fun _ => 0, wf := fun _ => 0, wg := fun _ => 0, wo := fun _ => 0,
    ri := fun k => if k = 2 then 1 else 0,
    rf := fun _ => 0, rg := fun _ => 0, ro := fun _ => 0,
    bi := fun _ => 0, bf := fun _ => 0,
    bg := fun _ => MUSCLE_FIXED_ONE, bo := fun _ => 0 }

/-- The argmax loop of `muscle_cache_predict` over the first `n` output
scores, starting from `best_block = -1`, `best_score = -ONE`. -/
def cache_argmaxAux (out : Nat → Int) (n : Nat) : Int × Int :=
  (List.range n).foldl
    (fun p i => if out i > p.2 then ((i : Int), out i) else p)
    (-1, -MUSCLE_FIXED_ONE)

/-- `(best_block, best_score)` after the full output loop of
`muscle_cache_predict` (8 output classes). -/
def cache_argmax (out : Nat → Int) : Int × Int := cache_argmaxAux out 8

/-- The `u64` computation `pred = block + best_block - 3` of
`muscle_cache_predict` (wrapping modulo 2^64). -/
def cache_pred64 (block b : Nat) : Nat := (block + b + (2 ^ 64 - 3)) % 2 ^ 64

/-- The decision stage of `muscle_cache_predict`, given the computed
output scores and the anchor block: run the argmax loop; if a class was
selected return `(int)(block + best_block - 3)` (u64 arithmetic, then
truncation to C `int`), otherwise return the sentinel `-1`. -/
def muscle_cache_predict_decide (out : Nat → Int) (block : Nat) : Int :=
  let p := cache_argmax out
  if 0 ≤ p.1 then toS32 (cache_pred64 block p.1.toNat) else -1

/-- Weight tables of the security autoencoder in muscle_security.c
(`sec_enc_w` 16×7, `sec_enc_b` 16, `sec_dec_w` 7×16, `sec_dec_b` 7). -/
structure SecW where
  enc_w : Nat → Int
  enc_b : Nat → Int
  dec_w : Nat → Int
  dec_b : Nat → Int

/-- `sec_forward`: hidden unit `i` is `relu(enc_b[i] + Σ_j enc_w[i*7+j] * x[j])`. -/
def sec_forward (w : SecW) (x : Nat → Int) : Nat → Int := fun i =>
  muscle_relu (w.enc_b i + isum (fun j => w.enc_w (i * 7 + j) * x j) 7)

/-- The reconstruction loss of muscle_security.c (defined there as
`muscle_loss` and invoked as `sec_forward_loss`, the one reconstruction
loss of the file): decode `h`, then sum the squared differences over the
7 input dimensions. -/
def muscle_loss (w : SecW) (x h : Nat → Int) : Int :=
  isum (fun i =>
    let recon := w.dec_b i + isum (fun j => w.dec_w (i * 16 + j) * h j) 16
    (x i - recon) * (x i - recon)) 7

/-- The detector's mutable statistics: `sec_count`, `sec_running_mean`,
`sec_running_var`. -/
structure SecState where
  count : Nat
  mean : Nat → Int
  var : Nat → Int

/-- One dimension of the online update, with the incremented count `c`:
`delta = x - mean`; `mean += delta / c` (the mixed `s32 / u64` division
of the source); `var += delta * (x - mean_after_update)`. -/
def welford_code (c : Nat) (xi mi vi : Int) : Int × Int :=
  let delta := xi - mi
  let m := mi + sdiv_u64 delta c
  (m, vi + delta * (xi - m))

/-- The statistics state after one `muscle_security_check` observation:
`sec_count++`, then the per-dimension update over the 7 dimensions. -/
def sec_poststate (x : Nat → Int) (s : SecState) : SecState :=
  { count := s.count + 1,
    mean := fun i => if i < 7 then (welford_code (s.count + 1) (x i) (s.mean i) (s.var i)).1
      else s.mean i,
    var := fun i => if i < 7 then (welford_code (s.count + 1) (x i) (s.mean i) (s.var i)).2
      else s.var i }

/-- `std` as muscle_security_check computes it after the update:
`sec_running_var[0] / (sec_count > 1 ? sec_count - 1 : 1)` with the mixed
`s32 / u64` division. -/
def sec_std (x : Nat → Int) (s : SecState) : Int :=
  sdiv_u64 ((sec_poststate x s).var 0) (if s.count + 1 > 1 then s.count else 1)

/-- The reconstruction error of the current observation:
`muscle_loss` of the input against its encode/decode reconstruction. -/
def sec_err (w : SecW) (x : Nat → Int) : Int := muscle_loss w x (sec_forward w x)

/-- `muscle_security_check` given the already-built 7-dimensional feature
vector (dimensions 0..2 derive from `syscall_nr`, `arg1`, `arg2`;
dimensions 3..6 derive from `current->pid`, `jiffies`,
`current_uid().val` and `get_random_u32()`).  It returns the mutated
statistics together with the kill flag: `true` exactly when the source
executes `force_sig(SIGKILL, current)`, i.e. when `std > 0` and
`err > 16 * std`. -/
def muscle_security_check (w : SecW) (x : Nat → Int) (s : SecState) : SecState × Bool :=
  (sec_poststate x s, decide (0 < sec_std x s ∧ 16 * sec_std x s < sec_err w x))

/-- The all-zero weight tables, a concrete instance of the externally
supplied (and otherwise unconstrained) weight data. -/
def secW0 : SecW :=
  { enc_w := fun _ => 0, enc_b := fun _ => 0, dec_w := fun _ => 0, dec_b := fun _ => 0 }

/-- The zero-initialized statistics state. -/
def secS0 : SecState := { count := 0, mean := fun _ => 0, var := fun _ => 0 }

/-- A concrete scheduler weight assignment whose only nonzero entry is
`w1[0][0] = ONE`: hidden unit 0's sum is then a single weight-input
product. -/
def schedW_c1 : SchedW :=
  { w1 := fun k => if k = 0 then MUSCLE_FIXED_ONE else 0,
    b1 := fun _ => 0, w2 := fun _ => 0, b2 := fun _ => 0 }

/-- The state vector whose only nonzero entry is `state[0] = ONE`. -/
def state_c1 : Nat → Int := fun j => if j = 0 then MUSCLE_FIXED_ONE else 0

/-- C1: the claim says every FixedPoint product on the inference path is
`(a_raw * b_raw) >> 12`.  The code never rescales: the dense-layer sum of
`sched_forward` accumulates the raw product `ONE * ONE = 16777216`, where
the claimed product is `(ONE * ONE) >> 12 = 4096`.  The same shift-free
pattern appears in every gate sum, elementwise product and squared error
of the sources. -/
theorem C1_dense_product_not_rescaled :
    sched_hidden schedW_c1 state_c1 0 = 16777216 ∧
    muscle_fixed_mul_claim MUSCLE_FIXED_ONE MUSCLE_FIXED_ONE = 4096 ∧
    ((16777216 : Int) ≠ 4096) := by decide

/-- C2: the claim says `muscle_sigmoid` stays in `[0, ONE]` on the band
`[-8·ONE, 8·ONE]`.  At the in-band input `x = ONE = 4096` the code
returns `1968128`, far above `ONE`, because the product inside `approx`
is not rescaled. -/
theorem C2_sigmoid_leaves_unit_range :
    (-(8 * MUSCLE_FIXED_ONE) ≤ 4096 ∧ (4096 : Int) ≤ 8 * MUSCLE_FIXED_ONE) ∧
    muscle_sigmoid 4096 = 1968128 ∧ MUSCLE_FIXED_ONE < muscle_sigmoid 4096 := by decide

/-- C3 counterexample: `x = 9000` lies inside the band `[-5·ONE, 5·ONE]`
but the source computes the cube `9000³` in s32, wrapping to
`-1144440320`, and returns `9000 - (-1144440320)/(3·ONE²) = 9022 > ONE`;
at `x = 8192` the cube `2^39` wraps to `0` and the code returns
`8192 > ONE`.  Either way the in-band value does not stay within
`[-ONE, ONE]`. -/
theorem C3_tanh_band_counterexample :
    ((9000 : Int) ≤ 5 * MUSCLE_FIXED_ONE) ∧ muscle_tanh 9000 = 9022 ∧
    MUSCLE_FIXED_ONE < muscle_tanh 9000 ∧
    ((8192 : Int) ≤ 5 * MUSCLE_FIXED_ONE) ∧ muscle_tanh 8192 = 8192 ∧
    MUSCLE_FIXED_ONE < muscle_tanh 8192 := by decide

/-- The all-zero input vector of the C4 instance. -/
def x_c4 : Nat → Int := fun _ => 0

/-- The zeroed hidden/cell state. -/
def hc0_c4 : (Nat → Int) × (Nat → Int) := (fun _ => 0, fun _ => 0)

/-- C4: the claim says every unit's gate pre-activations use the hidden
vector as it was at the start of the step.  In `lstm_step` unit 1 reads
`h[0]` after unit 0 has already overwritten it: with the `lstmW_c4`
weights, zero input and zero state, unit 0 writes `h[0] = 8388608` and
unit 1's input gate saturates on it, so the code computes
`c[1] = 4096 * 4096 = 16777216`, while the start-of-step dataflow
stated by the claim keeps unit 1's input gate at `sigmoid(0) = 2048`
and gives `c[1] = 2048 * 4096 = 8388608`.  (Every product on this
trace fits in s32; the tanh cubes wrap as modelled.) -/
theorem C4_lstm_uses_partially_updated_h :
    (lstm_step lstmW_c4 x_c4 hc0_c4).2 1 = 16777216 ∧
    (lstm_step_claim lstmW_c4 x_c4 hc0_c4).2 1 = 8388608 ∧
    ((16777216 : Int) ≠ 8388608) := by decide

/-- First observation of the C5 scenario: the zero vector. -/
def secX1 : Nat → Int := fun _ => 0

/-- Second observation: feature 0 equals 2 (raw). -/
def secX2 : Nat → Int := fun i => if i = 0 then 2 else 0

/-- Third observation: feature 0 equals 2, feature 1 equals 4. -/
def secX3 : Nat → Int := fun i => if i = 0 then 2 else if i = 1 then 4 else 0

/-- C5 counterexample: starting from the zero statistics state with the
all-zero weight tables, the third observation of this concrete sequence
drives `muscle_security_check` into its `force_sig(SIGKILL, current)`
branch — the core itself performs the punitive action on the calling
process. -/
theorem C5_core_kills_caller :
    (muscle_security_check secW0 secX3
      (muscle_security_check secW0 secX2
        (muscle_security_check secW0 secX1 secS0).1).1).2 = true := by decide

/-- C5 amended: the call mutates the running statistics (incrementing the
count) and produces the kill flag, and the kill is taken exactly when the
post-update `std` is positive and the reconstruction error exceeds
`16 * std` — when it is taken, the core sends SIGKILL to the calling
process rather than only returning a verdict. -/
theorem C5_amended_kill_condition : ∀ (w : SecW) (x : Nat → Int) (s : SecState),
    (muscle_security_check w x s).1.count = s.count + 1 ∧
    ((muscle_security_check w x s).2 = true ↔
      0 < sec_std x s ∧ 16 * sec_std x s < sec_err w x) :=
  fun _ x s => ⟨rfl, by simp [muscle_security_check]⟩

/-- A statistics state with two recorded observations
(`count = 2`, `mean[0] = 1`, `var[0] = 2`). -/
def secS6 : SecState :=
  { count := 2, mean := fun i => if i = 0 then 1 else 0,
    var := fun i => if i = 0 then 2 else 0 }

/-- A feature vector with dimensions 0..2 equal to `(2, 0, 0)` and the
random dimension 6 equal to 0. -/
def secXa : Nat → Int := fun i => if i = 0 then 2 else 0

/-- The same feature vector except that the random dimension 6 equals 4. -/
def secXb : Nat → Int := fun i => if i = 0 then 2 else if i = 6 then 4 else 0

/-- C6 counterexample: two calls with identical syscall-derived features
(dimensions 0..2) and identical statistics state, differing only in the
`get_random_u32()`-derived feature (dimension 6), return different
verdicts — the anomaly verdict is not a function of `syscall_nr`,
`arg1`, `arg2` and the statistics alone. -/
theorem C6_verdict_depends_on_random_feature :
    (secXa 0 = secXb 0 ∧ secXa 1 = secXb 1 ∧ secXa 2 = secXb 2) ∧
    (muscle_security_check secW0 secXa secS6).2 = false ∧
    (muscle_security_check secW0 secXb secS6).2 = true := by decide

/-- First observation of the C9 scenario: feature 0 equals 8. -/
def secX8 : Nat → Int := fun i => if i = 0 then 8 else 0

/-- The all-zero observation. -/
def secZ : Nat → Int := fun _ => 0

/-- C9: the claim describes the mean update as a truncating integer
division `delta / count`.  On the third observation of this sequence
(`delta = -4`, `count = 3`) the code's `s32 / u64` division yields the
quotient `(2^64 - 4) / 3` truncated to `s32`, i.e. `+1431655764`, so the
running mean becomes `1431655768`; the truncating division the claim
states would give `4 + (-4)/3 = 3`. -/
theorem C9_mean_update_not_truncating_division :
    (muscle_security_check secW0 secZ
      (muscle_security_check secW0 secZ
        (muscle_security_check secW0 secX8 secS0).1).1).1.mean 0 = 1431655768 ∧
    (4 : Int) + Int.tdiv (0 - 4) 3 = 3 := by decide

/-- The output-score vector in which every class scores `-1`. -/
def out_c7 : Nat → Int := fun _ => -1

/-- C7 counterexample: with every one of the 8 output scores non-positive
(all equal to `-1`) the predictor still selects class 0 (because the
argmax threshold is the initial `best_score = -ONE`, not `0`) and returns
`100 + 0 - 3 = 97` instead of the no-prediction sentinel. -/
theorem C7_sentinel_threshold_counterexample :
    (∀ i < 8, out_c7 i ≤ 0) ∧ muscle_cache_predict_decide out_c7 100 = 97 ∧
    muscle_cache_predict_decide out_c7 100 ≠ -1 := by decide

/-- C8: with zero collected candidates `muscle_scheduler_tick` returns
the current selection unchanged and its result does not depend on the
candidate slots or features at all (the source returns before building
the state vector); and whenever the network's selected action index is
not below the candidate count `n`, the current selection is kept. -/
theorem C8_scheduler_degenerate_inputs :
    ∀ (w : SchedW) (n : Nat) (f1 f2 g1 g2 : Nat → Int) (cands cands' : Nat → Nat) (curr : Nat),
    (muscle_scheduler_tick w 0 f1 f2 cands curr = curr ∧
      muscle_scheduler_tick w 0 f1 f2 cands curr = muscle_scheduler_tick w 0 g1 g2 cands' curr) ∧
    (0 < n → n ≤ sched_forward w (sched_state n f1 f2) →
      muscle_scheduler_tick w n f1 f2 cands curr = curr) := by
  intro w n f1 f2 g1 g2 cands cands' curr
  refine ⟨⟨rfl, rfl⟩, ?_⟩
  intro hn hch
  have hne : ¬(n = 0) := by omega
  simp only [muscle_scheduler_tick, hne, if_false]
  rw [if_neg (fun h => absurd h.1 (Nat.not_lt.mpr hch))]

/-- A scheduler weight assignment whose only nonzero entry is the output
bias `b2[4] = 1`, making action 4 the argmax. -/
def schedW_c8 : SchedW :=
  { w1 := fun _ => 0, b1 := fun _ => 0, w2 := fun _ => 0,
    b2 := fun k => if k = 4 then 1 else 0 }

theorem C8_scheduler_degenerate_inputs_witness :
    muscle_scheduler_tick schedW_c8 1 (fun _ => 0) (fun _ => 0) (fun _ => 0) 7 = 7 :=
  (C8_scheduler_degenerate_inputs schedW_c8 1 (fun _ => 0) (fun _ => 0) (fun _ => 0)
    (fun _ => 0) (fun _ => 0) (fun _ => 0) 7).2 (by decide) (by decide)

/-- Invariant of the argmax loop of `muscle_cache_predict`: after `n`
iterations either nothing beat the initial `(-1, -ONE)` pair, or a class
index was selected with a score above `-ONE`; and `best_block` is still
`-1` precisely when every score seen so far is `≤ -ONE`. -/
theorem cache_argmaxAux_inv (out : Nat → Int) :
    ∀ n : Nat,
      (((cache_argmaxAux out n).1 = -1 ∧ (cache_argmaxAux out n).2 = -MUSCLE_FIXED_ONE) ∨
        (0 ≤ (cache_argmaxAux out n).1 ∧ -MUSCLE_FIXED_ONE < (cache_argmaxAux out n).2)) ∧
      ((cache_argmaxAux out n).1 = -1 ↔ ∀ i < n, out i ≤ -MUSCLE_FIXED_ONE)
  | 0 => by
    refine ⟨Or.inl ⟨rfl, rfl⟩, ?_⟩
    simp [cache_argmaxAux]
  | n + 1 => by
    have ih := cache_argmaxAux_inv out n
    have hstep : cache_argmaxAux out (n + 1) =
        (if out n > (cache_argmaxAux out n).2 then ((n : Int), out n)
          else cache_argmaxAux out n) := by
      unfold cache_argmaxAux
      rw [List.range_succ, List.foldl_append]
      simp [List.foldl]
    by_cases h : out n > (cache_argmaxAux out n).2
    · rw [hstep, if_pos h]
      refine ⟨Or.inr ⟨Int.natCast_nonneg n, ?_⟩, ?_, ?_⟩
      · rcases ih.1 with ⟨_, hsnd⟩ | ⟨_, hsnd⟩
        · rw [hsnd] at h; exact h
        · exact lt_trans hsnd h
      · intro hfst
        exfalso
        have h' : (n : Int) = -1 := hfst
        omega
      · intro hall
        exfalso
        have h1 := hall n (Nat.lt_succ_self n)
        rcases ih.1 with ⟨_, hsnd⟩ | ⟨_, hsnd⟩
        · rw [hsnd] at h; linarith
        · have := lt_trans hsnd h; linarith
    · rw [hstep, if_neg h]
      refine ⟨ih.1, ?_, ?_⟩
      · intro hfst i hi
        rcases Nat.lt_succ_iff_lt_or_eq.mp hi with hi' | hi'
        · exact (ih.2.mp hfst) i hi'
        · subst hi'
          rcases ih.1 with ⟨_, hsnd⟩ | ⟨hf, _⟩
          · rw [hsnd] at h; linarith [not_lt.mp h]
          · rw [hfst] at hf; exact absurd hf (by norm_num)
      · intro hall
        exact ih.2.mpr (fun i hi => hall i (Nat.lt_succ_of_lt hi))

/-- C7 amended: `muscle_cache_predict` selects no class (and returns the
sentinel `-1`) exactly when every one of the 8 output scores is
`≤ -MUSCLE_FIXED_ONE` — the initial `best_score` threshold — and not
merely non-positive; otherwise it returns the C-int truncation of the
u64 value `block + best_class - 3` for the argmax class. -/
theorem C7_amended_sentinel_iff : ∀ (out : Nat → Int) (block : Nat),
    ((cache_argmax out).1 = -1 ↔ ∀ i < 8, out i ≤ -MUSCLE_FIXED_ONE) ∧
    ((cache_argmax out).1 = -1 → muscle_cache_predict_decide out block = -1) ∧
    (0 ≤ (cache_argmax out).1 →
      muscle_cache_predict_decide out block =
        toS32 (cache_pred64 block (cache_argmax out).1.toNat)) := by
  intro out block
  refine ⟨(cache_argmaxAux_inv out 8).2, ?_, ?_⟩
  · intro h
    simp only [muscle_cache_predict_decide]
    rw [h]
    norm_num
  · intro h
    simp only [muscle_cache_predict_decide]
    rw [if_pos h]

theorem C7_amended_sentinel_iff_witness :
    muscle_cache_predict_decide (fun _ => -MUSCLE_FIXED_ONE) 5 = -1 :=
  (C7_amended_sentinel_iff (fun _ => -MUSCLE_FIXED_ONE) 5).2.1
    ((C7_amended_sentinel_iff (fun _ => -MUSCLE_FIXED_ONE) 5).1.mpr (by decide))

/-- The output-score vector whose argmax is class 2 (score 5), all other
classes at the `-ONE` threshold. -/
def out_c10 : Nat → Int := fun i => if i = 2 then 5 else -MUSCLE_FIXED_ONE

/-- C10: whenever `block + best_block < 3` the u64 computation
`block + best_block - 3` wraps modulo 2^64 (for `block = 0`, class 0 it
is `2^64 - 3`, returned as the negative int `-3`), and with argmax class
2 at `block = 0` the returned value is exactly `-1`, the no-prediction
sentinel, even though a class was selected. -/
theorem C10_wraparound_aliases_sentinel :
    (∀ block b : Nat, block + b < 3 →
      cache_pred64 block b = block + b + (2 ^ 64 - 3)) ∧
    (muscle_cache_predict_decide (fun _ => 0) 0 = -3 ∧
      0 ≤ (cache_argmax (fun _ => 0)).1) ∧
    (muscle_cache_predict_decide out_c10 0 = -1 ∧ (cache_argmax out_c10).1 = 2) := by
  refine ⟨?_, ⟨by decide, by decide⟩, by decide, by decide⟩
  intro block b h
  unfold cache_pred64
  apply Nat.mod_eq_of_lt
  omega

theorem C10_wraparound_aliases_sentinel_witness :
    cache_pred64 0 0 = 2 ^ 64 - 3 := by
  have h := C10_wraparound_aliases_sentinel.1 0 0 (by omega)
  simpa using h

/-- C6 amended: the verdict and the mutated statistics are a function of
the full 7-dimensional feature vector (which includes the pid-, jiffies-,
uid- and random-derived dimensions 3..6) and the statistics state:
`muscle_security_check` reads no feature dimension beyond the first 7. -/
theorem C6_amended_frame : ∀ (w : SecW) (s : SecState) (x y : Nat → Int),
    (∀ i, i < 7 → x i = y i) →
    muscle_security_check w x s = muscle_security_check w y s := by
  intro w s x y hxy
  have hpost : sec_poststate x s = sec_poststate y s := by
    unfold sec_poststate
    have hm : (fun i => if i < 7 then
          (welford_code (s.count + 1) (x i) (s.mean i) (s.var i)).1 else s.mean i)
        = (fun i => if i < 7 then
          (welford_code (s.count + 1) (y i) (s.mean i) (s.var i)).1 else s.mean i) :=
      funext fun i => by
        by_cases hi : i < 7
        · rw [if_pos hi, if_pos hi, hxy i hi]
        · rw [if_neg hi, if_neg hi]
    have hv : (fun i => if i < 7 then
          (welford_code (s.count + 1) (x i) (s.mean i) (s.var i)).2 else s.var i)
        = (fun i => if i < 7 then
          (welford_code (s.count + 1) (y i) (s.mean i) (s.var i)).2 else s.var i) :=
      funext fun i => by
        by_cases hi : i < 7
        · rw [if_pos hi, if_pos hi, hxy i hi]
        · rw [if_neg hi, if_neg hi]
    rw [hm, hv]
  have hfwd : sec_forward w x = sec_forward w y :=
    funext fun i => by
      unfold sec_forward
      have h := isum_congr (f := fun j => w.enc_w (i * 7 + j) * x j)
        (g := fun j => w.enc_w (i * 7 + j) * y j) 7 (fun j hj => by simp only [hxy j hj])
      rw [h]
  have herr : sec_err w x = sec_err w y := by
    unfold sec_err muscle_loss
    rw [hfwd]
    exact isum_congr 7 (fun i hi => by simp only [hxy i hi])
  have hstd : sec_std x s = sec_std y s := by
    unfold sec_std
    rw [hpost]
  unfold muscle_security_check
  rw [hpost, hstd, herr]

/-- A feature vector equal to zero on the 7 used dimensions and nonzero
beyond them. -/
def secY7 : Nat → Int := fun i => if i < 7 then 0 else 7

theorem C6_amended_frame_witness :
    muscle_security_check secW0 secZ secS0 = muscle_security_check secW0 secY7 secS0 :=
  C6_amended_frame secW0 secS0 secZ secY7 (fun i hi => by simp [secZ, secY7, hi])

/-- The result of `wrap32` lies in the s32 range. -/
theorem wrap32_range (v : Int) :
    -(2147483648) ≤ wrap32 v ∧ wrap32 v ≤ 2147483647 := by
  unfold wrap32
  have h1 : 0 ≤ (v + 2 ^ 31).emod (2 ^ 32) := Int.emod_nonneg _ (by norm_num)
  have h2 : (v + 2 ^ 31).emod (2 ^ 32) < 2 ^ 32 := Int.emod_lt_of_pos _ (by norm_num)
  have e1 : ((2 : Int) ^ 32) = 4294967296 := by norm_num
  have e2 : ((2 : Int) ^ 31) = 2147483648 := by norm_num
  rw [e1, e2] at h1 h2 ⊢
  constructor <;> linarith

/-- Dividing an s32-range value by `3·ONE² = 50331648` with C's
truncating division gives a quotient of magnitude at most 42. -/
theorem tanh_wrap_quotient_bound (a : Int)
    (h1 : -(2147483648) ≤ a) (h2 : a ≤ 2147483647) :
    -42 ≤ Int.tdiv a ((50331648 : Nat) : Int) ∧
      Int.tdiv a ((50331648 : Nat) : Int) ≤ 42 := by
  rcases le_or_lt 0 a with ha | ha
  · obtain ⟨m, rfl⟩ := Int.eq_ofNat_of_zero_le ha
    have hm : m ≤ 2147483647 := by exact_mod_cast h2
    have hdiv : Int.tdiv ((m : Nat) : Int) ((50331648 : Nat) : Int)
        = ((m / 50331648 : Nat) : Int) := rfl
    rw [hdiv]
    have hq : m / 50331648 ≤ 42 := by
      have hd : m / 50331648 ≤ 2147483647 / 50331648 := Nat.div_le_div_right hm
      have he : (2147483647 : Nat) / 50331648 = 42 := by norm_num
      omega
    constructor
    · have h0 : (0 : Int) ≤ ((m / 50331648 : Nat) : Int) := Int.natCast_nonneg _
      linarith
    · exact_mod_cast hq
  · have ha0 : (0 : Int) ≤ -a := by linarith
    obtain ⟨m, hma⟩ := Int.eq_ofNat_of_zero_le ha0
    have ham : a = -((m : Nat) : Int) := by rw [← hma]; ring
    have hm : m ≤ 2147483648 := by
      have hgem : -(2147483648 : Int) ≤ -((m : Nat) : Int) := by rw [← ham]; exact h1
      omega
    rw [ham, Int.neg_tdiv]
    have hdiv : Int.tdiv ((m : Nat) : Int) ((50331648 : Nat) : Int)
        = ((m / 50331648 : Nat) : Int) := rfl
    rw [hdiv]
    have hq : m / 50331648 ≤ 42 := by
      have hd : m / 50331648 ≤ 2147483648 / 50331648 := Nat.div_le_div_right hm
      have he : (2147483648 : Nat) / 50331648 = 42 := by norm_num
      omega
    constructor
    · have hqi : ((m / 50331648 : Nat) : Int) ≤ 42 := by exact_mod_cast hq
      linarith
    · have h0 : (0 : Int) ≤ ((m / 50331648 : Nat) : Int) := Int.natCast_nonneg _
      linarith

/-- C3 amended: `muscle_tanh` saturates exactly to `ONE` above `5·ONE`
and to `-ONE` below `-5·ONE`; inside the band the code returns
`x - cube/(3·ONE²)` where the cube is the s32-wrapped `x*x*x`, and
since that quotient has magnitude at most 42 the result lies within
`[-ONE, ONE]` whenever `|x| ≤ ONE - 42` — but not on the whole band:
at `x = 9000` the code returns `9022` and at `x = 8192` it returns
`8192`, both above `ONE` (see the counterexample). -/
theorem C3_amended_tanh_bounds : ∀ x : Int,
    (5 * MUSCLE_FIXED_ONE < x → muscle_tanh x = MUSCLE_FIXED_ONE) ∧
    (x < -(5 * MUSCLE_FIXED_ONE) → muscle_tanh x = -MUSCLE_FIXED_ONE) ∧
    (-(MUSCLE_FIXED_ONE - 42) ≤ x → x ≤ MUSCLE_FIXED_ONE - 42 →
      -MUSCLE_FIXED_ONE ≤ muscle_tanh x ∧ muscle_tanh x ≤ MUSCLE_FIXED_ONE) := by
  intro x
  have hone : MUSCLE_FIXED_ONE = 4096 := by norm_num [MUSCLE_FIXED_ONE, MUSCLE_FIXED_SHIFT]
  refine ⟨?_, ?_, ?_⟩
  · intro h
    unfold muscle_tanh
    rw [if_pos h]
  · intro h
    unfold muscle_tanh
    rw [if_neg (show ¬(x > 5 * MUSCLE_FIXED_ONE) by rw [hone] at h ⊢; linarith), if_pos h]
  · intro h1 h2
    rw [hone] at h1 h2
    norm_num at h1 h2
    unfold muscle_tanh
    rw [if_neg (show ¬(x > 5 * MUSCLE_FIXED_ONE) by rw [hone]; linarith),
        if_neg (show ¬(x < -(5 * MUSCLE_FIXED_ONE)) by rw [hone]; linarith)]
    have hc : 3 * MUSCLE_FIXED_ONE * MUSCLE_FIXED_ONE = ((50331648 : Nat) : Int) := by
      rw [hone]; norm_num
    rw [hc, hone]
    have hw := wrap32_range (wrap32 (x * x) * x)
    have hq := tanh_wrap_quotient_bound (wrap32 (wrap32 (x * x) * x)) hw.1 hw.2
    generalize Int.tdiv (wrap32 (wrap32 (x * x) * x)) ((50331648 : Nat) : Int) = q at hq ⊢
    constructor <;> linarith [hq.1, hq.2]

theorem C3_amended_tanh_bounds_witness :
    -MUSCLE_FIXED_ONE ≤ muscle_tanh 1000 ∧ muscle_tanh 1000 ≤ MUSCLE_FIXED_ONE :=
  (C3_amended_tanh_bounds 1000).2.2 (by decide) (by decide)
